import Mathlib

/-!
Verification of the OpenManus agent core: the event bus (`app/utils/agent_event.py`),
the agent state machine (`app/agent/base.py`), the remote tool connection host
(`app/tool/mcp.py`) and the task registry (`app/apis/services/task_manager.py`),
shallowly embedded in Lean.  Python strings are modelled as `String` (or as
`List Char` where character slicing matters), dicts with insertion order as
association lists, and raised exceptions as `Except` errors.
-/

namespace OpenManus

/-- Python exception classes that the embedded code can raise. -/
inductive PyError where
  | typeError
  | valueError
  | runtimeError
  deriving DecidableEq, Repr

/-- Equality of embedded fallible results is decidable (needed to evaluate
the model on concrete inputs). -/
instance {ε α : Type} [DecidableEq ε] [DecidableEq α] : DecidableEq (Except ε α) :=
  fun a b =>
    match a, b with
    | .ok x, .ok y =>
      if h : x = y then isTrue (by rw [h])
      else isFalse (fun hc => h (Except.ok.inj hc))
    | .error x, .error y =>
      if h : x = y then isTrue (by rw [h])
      else isFalse (fun hc => h (Except.error.inj hc))
    | .ok _, .error _ => isFalse (fun hc => Except.noConfusion hc)
    | .error _, .ok _ => isFalse (fun hc => Except.noConfusion hc)

/-! ### Event names (`app/utils/agent_event.py`, classes `BaseAgentEvents`) -/

/-- The common event-name prefix (agent_event.py line 45). -/
def BASE_AGENT_EVENTS_PREFIX : String := "agent:lifecycle"

def LIFECYCLE_START : String := BASE_AGENT_EVENTS_PREFIX ++ ":start"

def LIFECYCLE_PREPARE_START : String := BASE_AGENT_EVENTS_PREFIX ++ ":prepare:start"

def LIFECYCLE_PREPARE_COMPLETE : String := BASE_AGENT_EVENTS_PREFIX ++ ":prepare:complete"

def LIFECYCLE_COMPLETE : String := BASE_AGENT_EVENTS_PREFIX ++ ":complete"

def LIFECYCLE_TERMINATED : String := BASE_AGENT_EVENTS_PREFIX ++ ":terminated"

def STATE_CHANGE : String := BASE_AGENT_EVENTS_PREFIX ++ ":state:change"

def STEP_MAX_REACHED : String := BASE_AGENT_EVENTS_PREFIX ++ ":step_max_reached"

/-! ### The `emit` path (`app/agent/base.py` 336-375, `app/utils/agent_event.py` 30-34)

`EventItem` is declared as a `NamedTuple` with exactly four fields
(agent_event.py lines 30-34): `name`, `step`, `timestamp`, `content`.
A Python `NamedTuple` constructor raises `TypeError` when called with a
keyword argument that is not one of its declared fields; we embed the
constructor call as a field-name check. -/

/-- Field names declared by the `EventItem` NamedTuple (agent_event.py 30-34). -/
def eventItemFields : List String := ["name", "step", "timestamp", "content"]

/-- The keyword arguments that `BaseAgent.emit` passes to the `EventItem`
constructor (base.py 367-374): `id`, `parent_id`, `name`, `step`,
`timestamp`, `content`. -/
def emitCallKwargs : List String :=
  ["id", "parent_id", "name", "step", "timestamp", "content"]

/-- A Python NamedTuple constructor call succeeds exactly when every keyword
argument used at the call site is a declared field of the tuple class. -/
def namedTupleCallOk (fields kwargs : List String) : Bool :=
  kwargs.all fun k => fields.contains k

/-- The record that `emit` intends to enqueue onto the bus queue: an id, an
optional parent id, the event name, the agent's current step and the payload.
The wall-clock timestamp is not modelled. -/
structure BusEvent (α : Type) where
  id : String
  parent_id : Option String
  name : String
  step : Nat
  content : α
  deriving DecidableEq, Repr

/-- The `options` dictionary accepted by `emit` (the keys it reads). -/
structure EmitOptions where
  id : Option String := none
  parent_id : Option String := none
  deriving DecidableEq, Repr

/-- Embedding of `BaseAgent.emit` (base.py 336-375).  `freshId` stands for the
generated `uuid.uuid4()` string.  The function returns the bus queue after the
`put`, or the exception the call raises.  Mirrors the source exactly: when the
queue is enabled it assigns a generated id if the supplied one is absent or
empty, then calls the `EventItem` constructor with the keyword arguments of
`emitCallKwargs`, and enqueues the result. -/
def emit (enable : Bool) (currentStep : Nat) (freshId : String)
    (name : String) (data : α) (options : EmitOptions)
    (queue : List (BusEvent α)) : Except PyError (List (BusEvent α)) :=
  if enable = false then .ok queue
  else
    let oid : String :=
      match options.id with
      | none => freshId
      | some s => if s = "" then freshId else s
    if namedTupleCallOk eventItemFields emitCallKwargs then
      .ok (queue ++ [⟨oid, options.parent_id, name, currentStep, data⟩])
    else
      .error .typeError

/-! ### The dispatch loop (`EventQueue.process_events`, agent_event.py 128-181)

A subscription pairs a compiled regex with a handler.  We model the compiled
pattern as the predicate it induces on event names (`pattern.pattern.match`)
and a handler's behaviour by whether the call raises on a given event; the
dispatch loop catches and logs a raising handler and continues. -/

/-- A registered `EventPattern`: the match predicate of the compiled regex and
the raise behaviour of the handler. -/
structure Subscription (α : Type) where
  matchName : String → Bool
  raiseOn : BusEvent α → Bool

/-- One handler call observed during dispatch: the event name it was invoked
for, the position of the handler in the subscription list, and whether the
call raised (the loop catches and logs the exception). -/
structure Invocation where
  eventName : String
  handlerIdx : Nat
  raised : Bool
  deriving DecidableEq, Repr

/-- The inner `for pattern in self._handlers` loop of `process_events`
(agent_event.py 146-163): every subscription whose pattern matches the event
name is invoked, in subscription order; a raising handler is caught and
logged, and iteration continues. -/
def run_matching_handlers (e : BusEvent α) :
    List (Subscription α) → Nat → List Invocation
  | [], _ => []
  | h :: rest, i =>
    if h.matchName e.name then
      ⟨e.name, i, h.raiseOn e⟩ :: run_matching_handlers e rest (i + 1)
    else
      run_matching_handlers e rest (i + 1)

/-- The `while self.queue` drain of `process_events` (agent_event.py 137-168):
events are dequeued front-first (`popleft` of a deque appended at the back)
and each event's matching handlers all run before the next event dequeues. -/
def process_events (handlers : List (Subscription α)) :
    List (BusEvent α) → List Invocation
  | [] => []
  | e :: rest => run_matching_handlers e handlers 0 ++ process_events handlers rest

/-! ### Agent state machine (`app/agent/base.py`) -/

/-- Agent lifecycle states.  Modelled from the spec: `app/schema.py` (the
`AgentState` enum) is not among the sources; the spec lists
`state ∈ {Idle, Running, Finished, Error}` and base.py uses exactly the
members `IDLE`, `RUNNING`, `FINISHED`, `ERROR`. -/
inductive AgentState where
  | IDLE
  | RUNNING
  | FINISHED
  | ERROR
  deriving DecidableEq, Repr

/-- Payload of one `agent:lifecycle:state:change` event: the `old_state` and
`new_state` values the `emit` call carries. -/
structure StateChange where
  old_state : AgentState
  new_state : AgentState
  deriving DecidableEq, Repr

/-- Embedding of `BaseAgent.state_context` (base.py 87-123) applied to a body
whose outcome is `body`.  Returns the agent state after the context exits,
the list of state-change payloads emitted by this call, and the propagated
outcome.  Mirrors the source: on entry the state is set to `newState` and one
event `(previous, newState)` is emitted; if the body raises, the except branch
sets the state to `ERROR` and emits `(state, ERROR)` — both fields read after
the assignment, hence `(ERROR, ERROR)` — and re-raises; the finally branch
always sets the state back to `previous` and emits `(state, previous)`, i.e.
`(previous, previous)`.  Any state writes the body performs are overwritten
by the except/finally assignments before being read, so they do not appear. -/
def state_context (previous newState : AgentState) (body : Except PyError α) :
    AgentState × List StateChange × Except PyError α :=
  match body with
  | .ok a =>
    (previous, [⟨previous, newState⟩, ⟨previous, previous⟩], .ok a)
  | .error e =>
    (previous,
      [⟨previous, newState⟩, ⟨.ERROR, .ERROR⟩, ⟨previous, previous⟩],
      .error e)

/-- The loop-control fields of a `BaseAgent`. -/
structure RunState where
  current_step : Nat
  state : AgentState
  should_terminate : Bool
  deriving DecidableEq, Repr

/-- An entry of the `results` list built by `BaseAgent.run`:
`f"Step {n}: ..."` lines and the `f"Terminated: Reached max steps ..."` line. -/
inductive ResultEntry where
  | stepResult (n : Nat)
  | maxStepsReached (maxSteps : Nat)
  deriving DecidableEq, Repr

/-- Whether a result entry is the "max steps reached" line. -/
def ResultEntry.isMaxReached : ResultEntry → Bool
  | .maxStepsReached _ => true
  | .stepResult _ => false

/-- Embedding of the `while` loop of `BaseAgent.run` (base.py 210-229).
`stepFn n` is the behaviour of the abstract `step` method on iteration `n`:
either the exception it raises (re-raised by the loop, base.py 216-219) or
the value of `should_terminate` it causes to be set during the step.  The
stuck check only touches `next_step_prompt`, so it does not appear in the
loop-control state.  `fuel` is a structural bound on the iteration count;
the loop body runs only while `current_step < maxSteps` and the state is not
`FINISHED`, and every iteration increments `current_step`, so any
`fuel ≥ maxSteps - current_step` makes the bound unreachable
(`step_loop_exhausts_condition` below). -/
def step_loop (maxSteps : Nat) (stepFn : Nat → Except PyError Bool) :
    Nat → RunState → List ResultEntry → Except PyError (RunState × List ResultEntry)
  | 0, s, acc => .ok (s, acc)
  | fuel + 1, s, acc =>
    if s.current_step < maxSteps ∧ s.state ≠ AgentState.FINISHED then
      match stepFn (s.current_step + 1) with
      | .error e => .error e
      | .ok flag =>
        step_loop maxSteps stepFn fuel
          { current_step := s.current_step + 1
            state :=
              if s.should_terminate || flag then AgentState.FINISHED else s.state
            should_terminate := s.should_terminate || flag }
          (acc ++ [.stepResult (s.current_step + 1)])
    else .ok (s, acc)

/-- Embedding of the post-loop max-steps branch of `BaseAgent.run`
(base.py 231-237): when `current_step >= max_steps`, reset `current_step` to
0, set the state to `IDLE`, emit `STEP_MAX_REACHED` and append the
"Terminated: Reached max steps" result line.  Returns the updated loop state,
the updated results and the event names emitted by the branch. -/
def max_steps_check (maxSteps : Nat) (s : RunState) (acc : List ResultEntry) :
    RunState × List ResultEntry × List String :=
  if maxSteps ≤ s.current_step then
    ({ current_step := 0, state := AgentState.IDLE,
       should_terminate := s.should_terminate },
      acc ++ [.maxStepsReached maxSteps], [STEP_MAX_REACHED])
  else (s, acc, [])

/-- The observable outcome of a completed `BaseAgent.run` call: the
loop-control fields after the call and the accumulated results, plus the
names of the lifecycle events the call emits itself. -/
structure RunOutcome where
  final : RunState
  results : List ResultEntry
  events : List String
  deriving DecidableEq, Repr

/-- Embedding of `BaseAgent.run` (base.py 183-256).  Raises `RuntimeError`
unless the state is `IDLE`; otherwise runs the step loop inside
`state_context(RUNNING)`: the context's finally branch restores the
pre-transition state on every exit, and an exception from the loop is
re-raised after the restore (aborting the run).  The `request`/`plan`
bookkeeping only touches memory and is not part of the loop-control state;
`prepare` is assumed to succeed (sandbox provisioning is outside the model).
The trailing branch emits `LIFECYCLE_TERMINATED` when `should_terminate` is
set and `LIFECYCLE_COMPLETE` otherwise.  Each `emit` call is modelled by the
name of the event it intends to enqueue; the `EventItem` constructor defect
analysed separately for the event bus is orthogonal to the loop control flow
modelled here. -/
def run (maxSteps : Nat) (stepFn : Nat → Except PyError Bool)
    (s0 : RunState) : Except PyError RunOutcome :=
  if s0.state ≠ AgentState.IDLE then .error .runtimeError
  else
    let previous := s0.state
    match step_loop maxSteps stepFn maxSteps
        { s0 with state := AgentState.RUNNING } [] with
    | .error e => .error e
    | .ok (s1, acc) =>
      let checked := max_steps_check maxSteps s1 acc
      let s2 := checked.1
      .ok { final := { s2 with state := previous }
            results := checked.2.1
            events :=
              [LIFECYCLE_START, LIFECYCLE_PREPARE_START, LIFECYCLE_PREPARE_COMPLETE,
                STATE_CHANGE] ++ checked.2.2 ++ [STATE_CHANGE] ++
                (if s2.should_terminate then [LIFECYCLE_TERMINATED]
                 else [LIFECYCLE_COMPLETE]) }

/-! ### Stuck detection (`BaseAgent.is_stuck` / `handle_stuck_state`,
base.py 270-297) -/

/-- A memory message.  Modelled from the spec: `app/schema.py` (the `Message`
class) is not among the sources; the spec describes memory as ordered
role-tagged messages, and base.py reads exactly the `role` and `content`
attributes here.  An empty `content` models Python falsiness of the field. -/
structure Message where
  role : String
  content : String
  deriving DecidableEq, Repr

/-- Embedding of `BaseAgent.is_stuck` (base.py 281-297): fewer than two
messages or an empty latest content is never stuck; otherwise count the
messages before the last one (the Python generator runs over
`reversed(messages[:-1])`; reversal does not change a count) whose role is
`"assistant"` and whose content equals the latest content, and compare the
count against `duplicate_threshold`. -/
def is_stuck (messages : List Message) (threshold : Nat) : Bool :=
  if messages.length < 2 then false
  else
    match messages.getLast? with
    | none => false
    | some last =>
      if last.content = "" then false
      else
        decide (threshold ≤ messages.dropLast.countP
          (fun msg => msg.role == "assistant" && msg.content == last.content))

/-- The strategy-change instruction of `BaseAgent.handle_stuck_state`
(base.py 272-273); the Python source continues the string literal across a
line break, so the text keeps the indentation of the second line. -/
def stuck_prompt : String :=
  "        Observed duplicate responses. Consider new strategies and avoid repeating ineffective paths already attempted."

/-- Embedding of `BaseAgent.handle_stuck_state` (base.py 270-279): the next
step prompt becomes `f"{stuck_prompt}\n{self.next_step_prompt}"`. -/
def handle_stuck_state (next_step_prompt : String) : String :=
  stuck_prompt ++ "\n" ++ next_step_prompt

/-! ### Remote tool connection host (`app/tool/mcp.py`) -/

/-- The connection host: `self.clients` is a Python dict from client id to
client, modelled as an insertion-ordered association list (Python dicts
preserve insertion order). -/
structure MCPToolCallHost (κ : Type) where
  clients : List (String × κ)
  deriving DecidableEq, Repr

/-- The insertion-ordered key list of the host's client dict. -/
def MCPToolCallHost.clientIds (h : MCPToolCallHost κ) : List String :=
  h.clients.map Prod.fst

/-- Embedding of `MCPToolCallHost.remove_client` (mcp.py 108-120):
`self.clients.pop(client_id, None)` removes the binding when present and the
client is then disconnected; returns the updated host and whether a client
was found. -/
def remove_client (h : MCPToolCallHost κ) (client_id : String) :
    MCPToolCallHost κ × Bool :=
  if h.clientIds.contains client_id then
    (⟨h.clients.filter (fun p => !(p.1 == client_id))⟩, true)
  else (h, false)

/-- Embedding of `MCPToolCallHost.disconnect_all` (mcp.py 122-132): take the
list of client ids, reverse it, and remove each in turn.  Returns the final
host and the teardown order (the ids whose removal found a client, in the
order their connections were torn down). -/
def disconnect_all (h : MCPToolCallHost κ) : MCPToolCallHost κ × List String :=
  (h.clientIds.reverse).foldl
    (fun st cid =>
      match remove_client st.1 cid with
      | (h2, found) => (h2, if found then st.2 ++ [cid] else st.2))
    (h, [])

/-- Embedding of `MCPToolCallHost.cleanup` (mcp.py 134-136), which just
delegates to `disconnect_all`. -/
def cleanup (h : MCPToolCallHost κ) : MCPToolCallHost κ × List String :=
  disconnect_all h

/-- Outcome of establishing one remote connection, as observed by
`connect_stdio`/`connect_sse`: the transport setup can raise, the
`session.initialize()` handshake can raise, the `session.list_tools()`
enumeration can raise, or everything succeeds and the server reports a tool
catalog. -/
inductive ConnectOutcome where
  | transportFail
  | handshakeFail
  | listToolsFail
  | success (toolNames : List String)
  deriving DecidableEq, Repr

/-- A connected `MCPSandboxClients` value as far as the host map is
concerned: its id and the registered (client-id-prefixed) tool names. -/
structure MCPClient where
  client_id : String
  tool_names : List String
  deriving DecidableEq, Repr

/-- Result of a connection attempt: the value returned or exception raised,
and whether `disconnect()` ran on the partial transport before the raise. -/
structure ConnectResult where
  result : Except PyError MCPClient
  disconnected : Bool
  deriving Repr

/-- Embedding of `MCPSandboxClients._initialize_and_list_tools`
(mcp.py 260-303): a failing `initialize()` or `list_tools()` is caught,
`disconnect()` tears the partial transport down, and a `RuntimeError` is
raised; on success every discovered tool is registered under the
`f"{client_id}-{tool.name}"` key. -/
def init_and_list_tools (client_id : String) (out : ConnectOutcome) :
    ConnectResult :=
  match out with
  | .transportFail => ⟨.error .runtimeError, false⟩
  | .handshakeFail => ⟨.error .runtimeError, true⟩
  | .listToolsFail => ⟨.error .runtimeError, true⟩
  | .success ts =>
    ⟨.ok ⟨client_id, ts.map (fun t => client_id ++ "-" ++ t)⟩, false⟩

/-- Embedding of `MCPSandboxClients.connect_stdio` (mcp.py 183-217): a
transport-creation failure is logged and re-raised without reaching the
initialization step (no disconnect of a session that was never entered);
otherwise the outcome is that of `_initialize_and_list_tools`.  The exception
class of the transport error is collapsed to `runtimeError`; no claim
distinguishes it. -/
def connect_stdio (client_id : String) (out : ConnectOutcome) : ConnectResult :=
  match out with
  | .transportFail => ⟨.error .runtimeError, false⟩
  | o => init_and_list_tools client_id o

/-- Embedding of `MCPSandboxClients.connect_sse` (mcp.py 219-248); identical
control flow to `connect_stdio` apart from the transport kind. -/
def connect_sse (client_id : String) (out : ConnectOutcome) : ConnectResult :=
  match out with
  | .transportFail => ⟨.error .runtimeError, false⟩
  | o => init_and_list_tools client_id o

/-- Embedding of `MCPToolCallHost.add_stdio_client` (mcp.py 63-95): raises
`ValueError` when the client id is already registered; otherwise connects and
only on success stores the client in the map.  Returns the host after the
call together with the returned client or raised exception. -/
def add_stdio_client (h : MCPToolCallHost MCPClient) (client_id : String)
    (out : ConnectOutcome) : MCPToolCallHost MCPClient × Except PyError MCPClient :=
  if h.clientIds.contains client_id then (h, .error .valueError)
  else
    match (connect_stdio client_id out).result with
    | .error e => (h, .error e)
    | .ok c => (⟨h.clients ++ [(client_id, c)]⟩, .ok c)

/-- Embedding of `MCPToolCallHost.add_sse_client` (mcp.py 35-61); same
structure as `add_stdio_client` over the SSE transport. -/
def add_sse_client (h : MCPToolCallHost MCPClient) (client_id : String)
    (out : ConnectOutcome) : MCPToolCallHost MCPClient × Except PyError MCPClient :=
  if h.clientIds.contains client_id then (h, .error .valueError)
  else
    match (connect_sse client_id out).result with
    | .error e => (h, .error e)
    | .ok c => (⟨h.clients ++ [(client_id, c)]⟩, .ok c)

/-! ### Tool-name prefixing and stripping (mcp.py 283-296 and 372-388)

Python string slicing is by character, so names are `List Char` here. -/

/-- The registered name of a discovered tool (mcp.py 285):
`f"{self.client_id}-{tool.name}"`. -/
def prefixed_name (client_id tool_name : List Char) : List Char :=
  client_id ++ '-' :: tool_name

/-- The name under which `MCPSandboxClientTool.execute` forwards the call to
the remote session (mcp.py 378-381):
`self.name[len(self.client_id) + 1 :] if self.client_id else self.name`. -/
def server_tool_name (client_id name : List Char) : List Char :=
  if client_id = [] then name else name.drop (client_id.length + 1)

/-- The tool proxy stored in the client's tool map: its registered name and
the owning client id (mcp.py 286-293). -/
structure MCPClientTool where
  name : List Char
  client_id : List Char
  deriving DecidableEq, Repr

/-- One iteration of the registration loop of `_initialize_and_list_tools`
(mcp.py 284-294): the map key and the stored proxy for a discovered tool. -/
def register_tool (client_id tool_name : List Char) : List Char × MCPClientTool :=
  (prefixed_name client_id tool_name,
    ⟨prefixed_name client_id tool_name, client_id⟩)

/-- The remote name `execute` uses for a stored proxy (mcp.py 378-381). -/
def execute_forwarded_name (tool : MCPClientTool) : List Char :=
  server_tool_name tool.client_id tool.name

/-! ### Task registry (`app/apis/services/task_manager.py`) -/

/-- The fields of a bus event that `TaskManager.update_task_progress` reads
(task_manager.py 59-70). -/
structure ProgressEvent (α : Type) where
  id : Option String
  parent_id : Option String
  name : String
  step : Nat
  content : α
  deriving DecidableEq, Repr

/-- One entry of a task's history list: the dict built by
`update_task_progress`. -/
structure HistoryEntry (α : Type) where
  index : Nat
  id : Option String
  parent_id : Option String
  type : String
  name : String
  step : Nat
  content : α
  deriving DecidableEq, Repr

/-- Embedding of `TaskManager.update_task_progress` (task_manager.py 59-70):
append a record whose `index` is the history length at append time. -/
def update_task_progress (history : List (HistoryEntry α))
    (e : ProgressEvent α) : List (HistoryEntry α) :=
  history ++ [{ index := history.length, id := e.id, parent_id := e.parent_id,
                type := "progress", name := e.name, step := e.step,
                content := e.content }]

/-- A task history as produced by recording a sequence of events through
`update_task_progress`, starting from the empty history that `create_task`
installs (task_manager.py 49-57). -/
def record_all (events : List (ProgressEvent α)) : List (HistoryEntry α) :=
  events.foldl update_task_progress []

/-- The `for event in new_events` body of `TaskManager.event_generator`
(task_manager.py 93-97): each new event is yielded in order, and the
generator returns right after yielding a `LIFECYCLE_COMPLETE` event.
Returns the yielded entries and whether the stream ended. -/
def yield_new_events : List (HistoryEntry α) → List (HistoryEntry α) × Bool
  | [] => ([], false)
  | e :: rest =>
    if e.name = LIFECYCLE_COMPLETE then ([e], true)
    else
      let r := yield_new_events rest
      (e :: r.1, r.2)

/-- One iteration of the polling loop of `event_generator`
(task_manager.py 90-105), on the history snapshot `history` with cursor
`last_index`: slice `history[last_index:]`, yield it, and advance the cursor
to `len(history)` when the stream did not end.  Heartbeats carry no history
entries and are not modelled. -/
def poll_iteration (history : List (HistoryEntry α)) (last_index : Nat) :
    List (HistoryEntry α) × Nat × Bool :=
  let new_events := history.drop last_index
  let r := yield_new_events new_events
  (r.1, if r.2 then last_index else history.length, r.2)

end OpenManus

namespace OpenManus

/-! ## Theorems -/

/-- Helper: the inner handler loop of the dispatcher invokes exactly the
matching subscriptions, in subscription order, with handler positions counted
from `i`; the handlers' raise behaviour does not influence which calls are
made. -/
theorem run_matching_handlers_map (e : BusEvent α) (hs : List (Subscription α))
    (i : Nat) :
    (run_matching_handlers e hs i).map (fun inv => (inv.eventName, inv.handlerIdx)) =
      ((List.enumFrom i hs).filter (fun p => p.2.matchName e.name)).map
        (fun p => (e.name, p.1)) := by
  induction hs generalizing i with
  | nil => simp [run_matching_handlers]
  | cons h rest ih =>
    simp only [run_matching_handlers, List.enumFrom, List.filter_cons]
    by_cases hm : h.matchName e.name
    · simp [hm, ih]
    · simp [hm, ih]

/-- C1: as stated, `emit` should succeed while the queue is running and
enqueue an event carrying an id.  In the code it never does: the `EventItem`
NamedTuple declares no `id` or `parent_id` field, so the constructor call in
`emit` raises `TypeError` for every event name, payload, options and queue
state. -/
theorem emit_always_raises_typeError (currentStep : Nat) (freshId : String)
    (name : String) (data : α) (options : EmitOptions)
    (queue : List (BusEvent α)) :
    emit true currentStep freshId name data options queue =
      Except.error PyError.typeError := by
  simp [emit, namedTupleCallOk, eventItemFields, emitCallKwargs]

/-- C2: `process_events` handles events in emission (queue) order, and for
each event it invokes exactly the subscriptions whose pattern matches the
event name, in subscription order, all of them before the next event is
dequeued.  The right-hand side depends only on the patterns, never on
`raiseOn`: a handler exception (caught and logged by the loop) removes no
invocation of a later handler of the same event nor of any later event. -/
theorem process_events_dispatch (handlers : List (Subscription α))
    (events : List (BusEvent α)) :
    (process_events handlers events).map (fun inv => (inv.eventName, inv.handlerIdx)) =
      events.flatMap (fun e =>
        (handlers.enum.filter (fun p => p.2.matchName e.name)).map
          (fun p => (e.name, p.1))) := by
  induction events with
  | nil => simp [process_events]
  | cons e rest ih =>
    simp [process_events, ih, run_matching_handlers_map, List.enum]

/-- C4 (amended): `state_context` always emits the entering state-change
event first and always leaves the agent in the pre-transition state,
re-raising a body exception; a normal exit emits exactly one reverting event,
but an exceptional exit emits two further state-change events — the error
event (whose payload reads the already-assigned `ERROR` state in both
fields) and then the reverting event — rather than the single
"reverted"/"error" event the claim states. -/
theorem state_context_emissions (previous newState : AgentState)
    (body : Except PyError β) :
    (state_context previous newState body).1 = previous ∧
    (state_context previous newState body).2.2 = body ∧
    ((state_context previous newState body).2.1.head? =
      some ⟨previous, newState⟩) ∧
    (∀ b, body = Except.ok b →
      (state_context previous newState body).2.1 =
        [⟨previous, newState⟩, ⟨previous, previous⟩]) ∧
    (∀ e, body = Except.error e →
      (state_context previous newState body).2.1 =
        [⟨previous, newState⟩, ⟨.ERROR, .ERROR⟩, ⟨previous, previous⟩]) := by
  cases body <;> simp [state_context]

/-- Witness for `state_context_emissions` at a concrete raising body. -/
theorem state_context_emissions_witness :
    (state_context AgentState.IDLE AgentState.RUNNING
        (Except.error PyError.runtimeError : Except PyError Unit)).2.1 =
      [⟨AgentState.IDLE, AgentState.RUNNING⟩,
        ⟨AgentState.ERROR, AgentState.ERROR⟩,
        ⟨AgentState.IDLE, AgentState.IDLE⟩] :=
  (state_context_emissions AgentState.IDLE AgentState.RUNNING
    (Except.error PyError.runtimeError : Except PyError Unit)).2.2.2.2
    PyError.runtimeError rfl

/-- Counterexample to C4 as stated: when the body raises, the call emits
three state-change events, not one entering plus one exit event. -/
theorem state_context_exit_counterexample :
    ¬ ((state_context AgentState.IDLE AgentState.RUNNING
        (Except.error PyError.runtimeError : Except PyError Unit)).2.1.length = 2) := by
  decide

/-- Helper: the step loop only appends per-step result lines; it never adds a
"max steps reached" entry. -/
theorem step_loop_countP_isMaxReached (maxSteps : Nat)
    (stepFn : Nat → Except PyError Bool) (fuel : Nat) (s : RunState)
    (acc : List ResultEntry) (s1 : RunState) (acc1 : List ResultEntry)
    (h : step_loop maxSteps stepFn fuel s acc = Except.ok (s1, acc1)) :
    acc1.countP ResultEntry.isMaxReached = acc.countP ResultEntry.isMaxReached := by
  induction fuel generalizing s acc with
  | zero =>
    simp only [step_loop, Except.ok.injEq, Prod.mk.injEq] at h
    rw [← h.2]
  | succ fuel ih =>
    rw [step_loop] at h
    split at h
    · cases hstep : stepFn (s.current_step + 1) with
      | error e => rw [hstep] at h; exact absurd h (by simp)
      | ok flag =>
        rw [hstep] at h
        rw [ih _ _ h]
        simp [List.countP_append, ResultEntry.isMaxReached]
    · simp only [Except.ok.injEq, Prod.mk.injEq] at h
      rw [← h.2]

/-- Helper: with fuel at least `maxSteps - current_step` the fuel bound is
never the reason the loop stops: at the exit state the `while` condition of
the source loop is false. -/
theorem step_loop_exhausts_condition (maxSteps : Nat)
    (stepFn : Nat → Except PyError Bool) (fuel : Nat) (s : RunState)
    (acc : List ResultEntry) (s1 : RunState) (acc1 : List ResultEntry)
    (hfuel : maxSteps - s.current_step ≤ fuel)
    (h : step_loop maxSteps stepFn fuel s acc = Except.ok (s1, acc1)) :
    ¬ (s1.current_step < maxSteps ∧ s1.state ≠ AgentState.FINISHED) := by
  induction fuel generalizing s acc with
  | zero =>
    simp only [step_loop, Except.ok.injEq, Prod.mk.injEq] at h
    rw [← h.1]
    intro hc
    omega
  | succ fuel ih =>
    rw [step_loop] at h
    split at h
    · cases hstep : stepFn (s.current_step + 1) with
      | error e => rw [hstep] at h; exact absurd h (by simp)
      | ok flag =>
        rw [hstep] at h
        exact ih _ _ (by simp; omega) h
    · rename_i hcond
      simp only [Except.ok.injEq, Prod.mk.injEq] at h
      rw [← h.1]
      exact hcond

/-- C3 (amended): starting from a fresh agent, the "max steps reached"
outcome — `current_step` reset to 0, state set to `IDLE`, the
`STEP_MAX_REACHED` event, and exactly one max-steps result entry — occurs if
and only if the loop exits with `current_step ≥ max_steps`; the state may
additionally have become `FINISHED` on that final step, a case the claim's
"without the state having become Finished" wrongly excludes.  In particular
an agent with `max_steps = 3` that never self-terminates ends with
`current_step` 0, state `IDLE`, and exactly one such entry. -/
theorem max_steps_outcome (maxSteps : Nat) (stepFn : Nat → Except PyError Bool)
    (s1 : RunState) (acc : List ResultEntry)
    (h : step_loop maxSteps stepFn maxSteps ⟨0, AgentState.RUNNING, false⟩ [] =
      Except.ok (s1, acc)) :
    (((max_steps_check maxSteps s1 acc).2.1.countP ResultEntry.isMaxReached = 1 ∧
      (max_steps_check maxSteps s1 acc).1.current_step = 0 ∧
      (max_steps_check maxSteps s1 acc).1.state = AgentState.IDLE ∧
      (max_steps_check maxSteps s1 acc).2.2 = [STEP_MAX_REACHED])
      ↔ maxSteps ≤ s1.current_step) ∧
    run 3 (fun _ => Except.ok false) ⟨0, AgentState.IDLE, false⟩ =
      Except.ok { final := ⟨0, AgentState.IDLE, false⟩,
                  results := [ResultEntry.stepResult 1, ResultEntry.stepResult 2,
                    ResultEntry.stepResult 3, ResultEntry.maxStepsReached 3],
                  events := [LIFECYCLE_START, LIFECYCLE_PREPARE_START,
                    LIFECYCLE_PREPARE_COMPLETE, STATE_CHANGE, STEP_MAX_REACHED,
                    STATE_CHANGE, LIFECYCLE_COMPLETE] } := by
  constructor
  · have hc := step_loop_countP_isMaxReached _ _ _ _ _ _ _ h
    simp only [List.countP_nil] at hc
    constructor
    · rintro ⟨h1, -, -, -⟩
      by_contra hlt
      push_neg at hlt
      unfold max_steps_check at h1
      rw [if_neg (by omega)] at h1
      simp [hc] at h1
    · intro hge
      unfold max_steps_check
      rw [if_pos hge]
      simp [List.countP_append, hc, ResultEntry.isMaxReached]
  · decide

/-- Witness for `max_steps_outcome`: the loop of a `max_steps = 1` agent
whose step terminates it exits at `current_step = 1`, and the outcome entry
is recorded. -/
theorem max_steps_outcome_witness :
    (max_steps_check 1 ⟨1, AgentState.FINISHED, true⟩
      [ResultEntry.stepResult 1]).2.1.countP ResultEntry.isMaxReached = 1 :=
  (((max_steps_outcome 1 (fun _ => Except.ok true) ⟨1, AgentState.FINISHED, true⟩
      [ResultEntry.stepResult 1] (by decide)).1).mpr (by decide)).1

/-- Counterexample to C3 as stated: with `max_steps = 1` and a step that sets
`should_terminate`, the loop exits with the state `FINISHED` at
`current_step = max_steps`, yet the "max steps reached" outcome still
occurs — refuting the claimed "only if the loop exits ... without the state
having become Finished". -/
theorem max_steps_outcome_counterexample :
    step_loop 1 (fun _ => Except.ok true) 1 ⟨0, AgentState.RUNNING, false⟩ [] =
      Except.ok (⟨1, AgentState.FINISHED, true⟩, [ResultEntry.stepResult 1]) ∧
    ¬ ((max_steps_check 1 ⟨1, AgentState.FINISHED, true⟩
          [ResultEntry.stepResult 1]).2.1.countP ResultEntry.isMaxReached = 1 →
        (⟨1, AgentState.FINISHED, true⟩ : RunState).state ≠ AgentState.FINISHED) := by
  exact ⟨by decide, by decide⟩

/-- Helper: folding `remove_client` over a duplicate-free list of ids, all
registered in the host, removes exactly those bindings and tears the
connections down in exactly the id-list order. -/
theorem fold_remove_spec {κ : Type} (ids : List String) :
    ∀ (h : MCPToolCallHost κ) (acc : List String),
      ids.Nodup → (∀ cid ∈ ids, cid ∈ h.clientIds) →
      ids.foldl
        (fun st cid =>
          match remove_client st.1 cid with
          | (h2, found) => (h2, if found then st.2 ++ [cid] else st.2))
        (h, acc) =
      (⟨h.clients.filter (fun p => !(ids.contains p.1))⟩, acc ++ ids) := by
  induction ids with
  | nil =>
    intro h acc _ _
    simp
  | cons cid rest ih =>
    intro h acc hnd hmem
    rw [List.foldl_cons]
    have hin : cid ∈ h.clientIds := hmem cid (List.mem_cons_self _ _)
    have hrc : remove_client h cid =
        (⟨h.clients.filter (fun p => !(p.1 == cid))⟩, true) := by
      rw [remove_client, if_pos (List.elem_iff.mpr hin)]
    have hmem2 : ∀ r ∈ rest,
        r ∈ (⟨h.clients.filter (fun p => !(p.1 == cid))⟩ : MCPToolCallHost κ).clientIds := by
      intro r hr
      have hrh : r ∈ h.clientIds := hmem r (List.mem_cons_of_mem _ hr)
      have hne : r ≠ cid := fun he => (List.nodup_cons.mp hnd).1 (he ▸ hr)
      obtain ⟨p, hp, hp1⟩ := List.mem_map.mp hrh
      exact List.mem_map.mpr
        ⟨p, List.mem_filter.mpr ⟨hp, by simp [hp1, hne]⟩, hp1⟩
    simp only [hrc]
    rw [ih _ _ (List.Nodup.of_cons hnd) hmem2]
    refine congrArg₂ Prod.mk ?_ (by simp)
    refine congrArg MCPToolCallHost.mk ?_
    rw [List.filter_filter]
    refine List.filter_congr ?_
    intro p _
    by_cases h1 : p.1 = cid <;> by_cases h2 : rest.contains p.1 <;>
      simp [List.contains_cons, h1, h2]

/-- C6: `disconnect_all` — and `cleanup`, which just delegates to it — tears
down the registered connections in exactly the reverse of insertion order
(the client dict preserves insertion order, and removal is driven by the
reversed key list), emptying the host; clients added `[A, B, C]` come down
`[C, B, A]`. -/
theorem disconnect_all_lifo {κ : Type} (h : MCPToolCallHost κ)
    (hnd : h.clientIds.Nodup) :
    (disconnect_all h).2 = h.clientIds.reverse ∧
    (disconnect_all h).1.clients = [] ∧
    cleanup h = disconnect_all h ∧
    (disconnect_all
      (⟨[("A", ()), ("B", ()), ("C", ())]⟩ : MCPToolCallHost Unit)).2 =
      ["C", "B", "A"] := by
  have hspec := fold_remove_spec h.clientIds.reverse h []
    (List.nodup_reverse.mpr hnd) (fun cid hc => List.mem_reverse.mp hc)
  refine ⟨?_, ?_, rfl, by decide⟩
  · rw [disconnect_all, hspec]
    simp
  · rw [disconnect_all, hspec]
    simp only
    rw [List.filter_eq_nil_iff]
    intro p hp
    have h1 : p.1 ∈ h.clientIds.reverse :=
      List.mem_reverse.mpr (List.mem_map.mpr ⟨p, hp, rfl⟩)
    simp [h1]

/-- Witness for `disconnect_all_lifo`: three clients added in order A, B, C
are torn down in order C, B, A. -/
theorem disconnect_all_lifo_witness :
    (disconnect_all
      (⟨[("A", 0), ("B", 0), ("C", 0)]⟩ : MCPToolCallHost Nat)).2 =
      ["C", "B", "A"] :=
  (disconnect_all_lifo (⟨[("A", 0), ("B", 0), ("C", 0)]⟩ : MCPToolCallHost Nat)
    (by decide)).1

/-- C7: adding a remote tool client under an already-registered id raises
`ValueError` and leaves the host untouched; a handshake or enumeration
failure during add tears the partial transport down (best-effort disconnect)
and propagates the raised `RuntimeError`; and in every failing case, on
either transport kind, the host's client map is exactly what it was before
the call — the failed connection never becomes visible through the host. -/
theorem add_client_failure_isolation (h : MCPToolCallHost MCPClient)
    (client_id : String) (out : ConnectOutcome) :
    (client_id ∈ h.clientIds →
      add_stdio_client h client_id out = (h, Except.error PyError.valueError) ∧
      add_sse_client h client_id out = (h, Except.error PyError.valueError)) ∧
    ((out = ConnectOutcome.handshakeFail ∨ out = ConnectOutcome.listToolsFail) →
      (connect_stdio client_id out).disconnected = true ∧
      (connect_sse client_id out).disconnected = true) ∧
    (∀ e, (add_stdio_client h client_id out).2 = Except.error e →
      (add_stdio_client h client_id out).1 = h) ∧
    (∀ e, (add_sse_client h client_id out).2 = Except.error e →
      (add_sse_client h client_id out).1 = h) ∧
    ((out = ConnectOutcome.handshakeFail ∨ out = ConnectOutcome.listToolsFail) →
      client_id ∉ h.clientIds →
      (add_stdio_client h client_id out).2 = Except.error PyError.runtimeError ∧
      (add_sse_client h client_id out).2 = Except.error PyError.runtimeError) := by
  refine ⟨?_, ?_, ?_, ?_, ?_⟩
  · intro hmem
    have hc := List.elem_iff.mpr hmem
    rw [add_stdio_client, add_sse_client, if_pos hc, if_pos hc]
    exact ⟨rfl, rfl⟩
  · rintro (rfl | rfl) <;> exact ⟨rfl, rfl⟩
  · intro e he
    rw [add_stdio_client] at he ⊢
    by_cases hc : h.clientIds.contains client_id = true
    · rw [if_pos hc]
    · rw [if_neg hc] at he ⊢
      cases hr : (connect_stdio client_id out).result with
      | error e2 => rfl
      | ok c =>
        rw [hr] at he
        exact absurd he (by simp)
  · intro e he
    rw [add_sse_client] at he ⊢
    by_cases hc : h.clientIds.contains client_id = true
    · rw [if_pos hc]
    · rw [if_neg hc] at he ⊢
      cases hr : (connect_sse client_id out).result with
      | error e2 => rfl
      | ok c =>
        rw [hr] at he
        exact absurd he (by simp)
  · intro hout hnm
    have hc : ¬ (h.clientIds.contains client_id = true) :=
      fun hcon => hnm (List.elem_iff.mp hcon)
    rw [add_stdio_client, add_sse_client, if_neg hc, if_neg hc]
    rcases hout with rfl | rfl <;> exact ⟨rfl, rfl⟩

/-- Witness for `add_client_failure_isolation`: a duplicate id is rejected
with the host unchanged, and a handshake failure on a fresh id propagates as
`RuntimeError`. -/
theorem add_client_failure_isolation_witness :
    add_stdio_client ⟨[("a", ⟨"a", []⟩)]⟩ "a" (ConnectOutcome.success []) =
      (⟨[("a", ⟨"a", []⟩)]⟩, Except.error PyError.valueError) ∧
    (add_stdio_client ⟨[]⟩ "b" ConnectOutcome.handshakeFail).2 =
      Except.error PyError.runtimeError :=
  ⟨((add_client_failure_isolation ⟨[("a", ⟨"a", []⟩)]⟩ "a"
      (ConnectOutcome.success [])).1 (by decide)).1,
    ((add_client_failure_isolation ⟨[]⟩ "b"
      ConnectOutcome.handshakeFail).2.2.2.2 (Or.inl rfl) (by decide)).1⟩

/-- C5: `is_stuck` returns true exactly when the memory holds at least two
messages, the latest message's content is non-empty, and at least
`duplicate_threshold` of the earlier messages are assistant-authored with
content identical to the latest; an agent whose last three assistant
messages are identical text is flagged with threshold 2 exactly on the third
duplicate, not on the second; and on detection `handle_stuck_state`
prefixes — never replaces — the next-step prompt with the non-empty
strategy-change instruction. -/
theorem is_stuck_characterization :
    (∀ (messages : List Message) (threshold : Nat),
      is_stuck messages threshold = true ↔
        (2 ≤ messages.length ∧ ∃ last, messages.getLast? = some last ∧
          last.content ≠ "" ∧
          threshold ≤ messages.dropLast.countP
            (fun msg => msg.role == "assistant" && msg.content == last.content))) ∧
    (is_stuck [⟨"assistant", "x"⟩, ⟨"assistant", "x"⟩, ⟨"assistant", "x"⟩] 2 = true ∧
      is_stuck [⟨"assistant", "x"⟩, ⟨"assistant", "x"⟩] 2 = false) ∧
    (∀ prompt : String,
      handle_stuck_state prompt = (stuck_prompt ++ "\n") ++ prompt ∧
      stuck_prompt ++ "\n" ≠ "") := by
  refine ⟨?_, ⟨by decide, by decide⟩, ?_⟩
  · intro messages threshold
    unfold is_stuck
    by_cases hlen : messages.length < 2
    · rw [if_pos hlen]
      simp only [Bool.false_eq_true, false_iff]
      rintro ⟨h2, -⟩
      omega
    · rw [if_neg hlen]
      split
      · rename_i hg
        rw [List.getLast?_eq_none_iff] at hg
        subst hg
        simp at hlen
      · rename_i last hg
        by_cases hc : last.content = ""
        · rw [if_pos hc]
          simp only [Bool.false_eq_true, false_iff]
          rintro ⟨-, last2, hg2, hne, -⟩
          rw [hg] at hg2
          injection hg2 with he
          exact hne (he ▸ hc)
        · rw [if_neg hc, decide_eq_true_eq]
          constructor
          · intro hcount
            exact ⟨by omega, last, hg, hc, hcount⟩
          · rintro ⟨-, last2, hg2, -, hcount⟩
            rw [hg] at hg2
            injection hg2 with he
            rw [he]
            exact hcount
  · intro prompt
    exact ⟨rfl, by decide⟩

/-- C8 (amended): on a connection with a non-empty client id, every
discovered tool is registered under the id-prefixed name
`client_id ++ "-" ++ tool_name`, and invoking the stored proxy forwards the
call under exactly the original discovered name — stripping the id prefix
plus separator undoes the prefixing. -/
theorem prefix_strip_round_trip (client_id tool_name : List Char)
    (hne : client_id ≠ []) :
    (register_tool client_id tool_name).1 = prefixed_name client_id tool_name ∧
    execute_forwarded_name (register_tool client_id tool_name).2 = tool_name := by
  refine ⟨rfl, ?_⟩
  show server_tool_name client_id (prefixed_name client_id tool_name) = tool_name
  rw [server_tool_name, if_neg hne, prefixed_name]
  rw [show client_id ++ '-' :: tool_name = (client_id ++ ['-']) ++ tool_name by simp]
  rw [show client_id.length + 1 = (client_id ++ ['-']).length by simp]
  exact List.drop_left _ _

/-- Witness for `prefix_strip_round_trip` at a concrete id and tool name. -/
theorem prefix_strip_round_trip_witness :
    execute_forwarded_name (register_tool ['c'] ['t', 'o', 'o', 'l']).2 =
      ['t', 'o', 'o', 'l'] :=
  (prefix_strip_round_trip ['c'] ['t', 'o', 'o', 'l'] (by decide)).2

/-- Counterexample to C8 as stated: nothing stops registering a connection
under the empty client id, and for it `execute` forwards the stored name
whole — the separator is not stripped, so the round trip fails on the tool
name "t". -/
theorem prefix_strip_counterexample :
    ¬ (execute_forwarded_name (register_tool [] ['t']).2 = ['t']) := by
  decide

/-- Helper: the recorded index sequence of a history built by folding
`update_task_progress` extends the existing indices with consecutive
positions starting at the current length. -/
theorem foldl_update_index_map (events : List (ProgressEvent α)) :
    ∀ (h : List (HistoryEntry α)),
      (events.foldl update_task_progress h).map (fun e => e.index) =
        h.map (fun e => e.index) ++ List.range' h.length events.length := by
  induction events with
  | nil => intro h; simp
  | cons e rest ih =>
    intro h
    simp only [List.foldl_cons]
    rw [ih]
    simp [update_task_progress, List.range'_succ]

/-- Helper: when no entry before the last one carries the terminal
completion name, the generator body yields the whole new-events slice. -/
theorem yield_new_events_all (l : List (HistoryEntry α))
    (hno : ∀ e ∈ l.dropLast, e.name ≠ LIFECYCLE_COMPLETE) :
    (yield_new_events l).1 = l := by
  induction l with
  | nil => simp [yield_new_events]
  | cons e rest ih =>
    by_cases hc : e.name = LIFECYCLE_COMPLETE
    · cases rest with
      | nil => simp [yield_new_events, hc]
      | cons r rs =>
        refine absurd hc (hno e ?_)
        rw [List.dropLast_cons₂]
        exact List.mem_cons_self _ _
    · simp only [yield_new_events, if_neg hc]
      rw [ih]
      intro x hx
      refine hno x ?_
      cases rest with
      | nil => simp at hx
      | cons r rs =>
        rw [List.dropLast_cons₂]
        exact List.mem_cons_of_mem _ hx

/-- Helper: dropping a prefix commutes with dropping the last element. -/
theorem dropLast_drop_comm (l : List α) (k : Nat) :
    (l.drop k).dropLast = l.dropLast.drop k := by
  rw [List.dropLast_eq_take, List.dropLast_eq_take, List.drop_take, List.length_drop]
  congr 1
  omega

/-- C9: each record appended by the progress recorder carries an index equal
to its history position — the index sequence of a recorded history is
exactly `0, 1, ..., n-1` — and one poll of the event generator from any
stale cursor `k ≤ len(history)` yields exactly `history[k:]`, in order,
without gaps or duplicates.  The replay half assumes no entry before the
final one carries the terminal `LIFECYCLE_COMPLETE` name, which holds of
every recorded history because `run` emits that event last and the
generator closes the stream upon yielding it. -/
theorem history_index_and_replay {α : Type} :
    (∀ (events : List (ProgressEvent α)),
      (record_all events).map (fun e => e.index) = List.range events.length) ∧
    (∀ (history : List (HistoryEntry α)) (k : Nat), k ≤ history.length →
      (∀ e ∈ history.dropLast, e.name ≠ LIFECYCLE_COMPLETE) →
      (poll_iteration history k).1 = history.drop k) := by
  constructor
  · intro events
    rw [record_all, foldl_update_index_map]
    simp [List.range_eq_range']
  · intro history k _ hno
    show (yield_new_events (history.drop k)).1 = history.drop k
    refine yield_new_events_all _ ?_
    intro e he
    refine hno e ?_
    rw [dropLast_drop_comm] at he
    exact List.mem_of_mem_drop he

/-- Witness for `history_index_and_replay`: replaying a two-entry history
from cursor 1 yields exactly the second entry. -/
theorem history_index_and_replay_witness :
    (poll_iteration
      ([⟨0, none, none, "progress", "agent:lifecycle:start", 0, 0⟩,
        ⟨1, none, none, "progress", "agent:lifecycle:complete", 1, 0⟩] :
        List (HistoryEntry Nat)) 1).1 =
      [⟨1, none, none, "progress", "agent:lifecycle:complete", 1, 0⟩] :=
  history_index_and_replay.2
    [⟨0, none, none, "progress", "agent:lifecycle:start", 0, 0⟩,
      ⟨1, none, none, "progress", "agent:lifecycle:complete", 1, 0⟩] 1
    (by decide) (by decide)

/-- C10: whenever `run` returns normally — including runs that
`should_terminate` drove to `FINISHED` inside the loop — the agent ends in
`IDLE`, never `FINISHED`: the state context's finally branch restores the
pre-run state (which `run`'s entry guard forces to be `IDLE`) on every
normal exit. -/
theorem run_returns_idle (maxSteps : Nat) (stepFn : Nat → Except PyError Bool)
    (s0 : RunState) (r : RunOutcome)
    (h : run maxSteps stepFn s0 = Except.ok r) :
    r.final.state = AgentState.IDLE ∧ r.final.state ≠ AgentState.FINISHED := by
  unfold run at h
  split at h
  · exact absurd h (by simp)
  · rename_i h0
    have hs0 : s0.state = AgentState.IDLE := not_ne_iff.mp h0
    cases hsl : step_loop maxSteps stepFn maxSteps
        { s0 with state := AgentState.RUNNING } [] with
    | error e => rw [hsl] at h; exact absurd h (by simp)
    | ok p =>
      rw [hsl] at h
      simp only [Except.ok.injEq] at h
      rw [← h]
      simp [hs0]

/-- Witness for `run_returns_idle`: a run whose single step terminates the
agent still returns with state `IDLE`. -/
theorem run_returns_idle_witness :
    ({ final := ⟨0, AgentState.IDLE, true⟩,
       results := [ResultEntry.stepResult 1, ResultEntry.maxStepsReached 1],
       events := [LIFECYCLE_START, LIFECYCLE_PREPARE_START,
         LIFECYCLE_PREPARE_COMPLETE, STATE_CHANGE, STEP_MAX_REACHED,
         STATE_CHANGE, LIFECYCLE_TERMINATED] } :
      RunOutcome).final.state = AgentState.IDLE :=
  (run_returns_idle 1 (fun _ => Except.ok true) ⟨0, AgentState.IDLE, false⟩ _
    (by decide)).1

end OpenManus
